import Mathlib

/-!
Verification of the `HarmonicBondForce` bond-parameter table from
`src/openmmapi/include/HarmonicBondForce.h` (OpenMM).

The header declares the class: a private `std::vector<BondInfo> bonds`
member, an inline `getNumBonds` returning `bonds.size()`, and declarations
for `addBond`, `getBondParameters` and `setBondParameters` (their bodies
live in `HarmonicBondForce.cpp`, which is not part of this source slice;
those bodies are modelled from the specification, as marked below).

Integers (`int`) are modelled as `Int`; the `double` parameters are only
stored and returned, never computed with, so they are modelled as `Rat`
(an exact stand-in that supports decidable equality).
-/

namespace OpenMM

/-- Embeds `HarmonicBondForce::BondInfo` (HarmonicBondForce.h lines 109-120):
two particle indices and the two real parameters of one bond term. -/
structure BondInfo where
  particle1 : Int
  particle2 : Int
  length : Rat
  k : Rat
  deriving Repr, DecidableEq

/-- Embeds the default constructor `BondInfo()` (lines 113-116):
`particle1 = particle2 = -1`, `length = k = 0.0`. -/
def BondInfo.default : BondInfo :=
  { particle1 := -1, particle2 := -1, length := 0, k := 0 }

/-- Embeds the state of a `HarmonicBondForce` object: its single data member
`std::vector<BondInfo> bonds` (line 102). -/
structure HarmonicBondForce where
  bonds : List BondInfo
  deriving Repr, DecidableEq

/-- Modelled from the spec: the constructor `HarmonicBondForce()` (declared
line 54, body in the missing `HarmonicBondForce.cpp`): the table is
"created empty at construction" (also forced by C++ semantics: the
`std::vector` member is default-initialised empty). -/
def HarmonicBondForce.init : HarmonicBondForce :=
  { bonds := [] }

/-- Embeds `getNumBonds` (lines 58-60, inline in the header):
`return bonds.size();`.  Declared `const`: it does not modify the object. -/
def HarmonicBondForce.getNumBonds (s : HarmonicBondForce) : Int :=
  (s.bonds.length : Int)

/-- Modelled from the spec: the body of `addBond` (declared line 69, body in
the missing `HarmonicBondForce.cpp`): "appends a new BondTerm built from the
four inputs".  The declaration in the header types the function as
`void addBond(int, int, double, double)`, so the call yields no value to the
caller; the returned-value observable is modelled as `Option Int` and is
`none`.  The result pair is (updated object state, returned value). -/
def HarmonicBondForce.addBond (s : HarmonicBondForce) (particle1 particle2 : Int)
    (length k : Rat) : HarmonicBondForce × Option Int :=
  ({ bonds := s.bonds ++ [⟨particle1, particle2, length, k⟩] }, none)

/-- The single error kind of this component.  Modelled from the spec: the
error taxonomy names exactly one kind, IndexOutOfRange, raised by
`getBondParameters` and `setBondParameters` on an index outside
`[0, count())`. -/
inductive BondError where
  | indexOutOfRange
  deriving Repr, DecidableEq

/-- Modelled from the spec: the body of `getBondParameters` (declared line
79, body in the missing `HarmonicBondForce.cpp`): "returns the stored tuple
for the given index. Fails with an out-of-range error if `index` is not in
`[0, count())`."  Declared `const` in the header: it does not modify the
object, so no state component is returned. -/
def HarmonicBondForce.getBondParameters (s : HarmonicBondForce) (index : Int) :
    Except BondError (Int × Int × Rat × Rat) :=
  if 0 ≤ index then
    match s.bonds[index.toNat]? with
    | some b => .ok (b.particle1, b.particle2, b.length, b.k)
    | none => .error .indexOutOfRange
  else
    .error .indexOutOfRange

/-- Modelled from the spec: the body of `setBondParameters` (declared line
89, body in the missing `HarmonicBondForce.cpp`): "overwrites the entry at
`index` in place. Fails with an out-of-range error if `index` is not in
`[0, count())`", and "an out-of-range call must leave all existing entries
unchanged" (the index check precedes any write).  The result pair is
(object state after the call, success or error). -/
def HarmonicBondForce.setBondParameters (s : HarmonicBondForce)
    (index particle1 particle2 : Int) (length k : Rat) :
    HarmonicBondForce × Except BondError Unit :=
  if 0 ≤ index ∧ index < (s.bonds.length : Int) then
    ({ bonds := s.bonds.set index.toNat ⟨particle1, particle2, length, k⟩ }, .ok ())
  else
    (s, .error .indexOutOfRange)

/-- One call of the public API of the table. -/
inductive Op where
  | count
  | add (particle1 particle2 : Int) (length k : Rat)
  | get (index : Int)
  | set (index particle1 particle2 : Int) (length k : Rat)
  deriving Repr, DecidableEq

/-- What one call returns to the caller. -/
inductive Ret where
  | unit
  | int (n : Int)
  | params (p : Int × Int × Rat × Rat)
  | err (e : BondError)
  deriving Repr, DecidableEq

/-- Whether a returned value reports a failure. -/
def Ret.isErr : Ret → Bool
  | .err _ => true
  | _ => false

/-- Dispatches one API call on the table state, pairing the state after the
call with the value returned to the caller.  `count` and `get` are `const`
methods (header lines 58 and 79): they leave the state unchanged. -/
def step (s : HarmonicBondForce) : Op → HarmonicBondForce × Ret
  | .count => (s, .int s.getNumBonds)
  | .add p1 p2 l k => ((s.addBond p1 p2 l k).1, .unit)
  | .get i =>
    (s, match s.getBondParameters i with
        | .ok t => .params t
        | .error e => .err e)
  | .set i p1 p2 l k =>
    ((s.setBondParameters i p1 p2 l k).1,
     match (s.setBondParameters i p1 p2 l k).2 with
     | .ok _ => .unit
     | .error e => .err e)

/-- Runs a sequence of API calls from a starting state, collecting the final
state and the list of returned values in call order. -/
def run (s : HarmonicBondForce) : List Op → HarmonicBondForce × List Ret
  | [] => (s, [])
  | op :: ops =>
    let r := step s op
    let rest := run r.1 ops
    (rest.1, r.2 :: rest.2)

/-- Applies a sequence of `addBond` calls (each a quadruple of arguments)
to the table, left to right. -/
def HarmonicBondForce.addBonds (s : HarmonicBondForce)
    (calls : List (Int × Int × Rat × Rat)) : HarmonicBondForce :=
  calls.foldl (fun t c => (t.addBond c.1 c.2.1 c.2.2.1 c.2.2.2).1) s

/-- A table holding one bond, the example of the specification:
`addBond(0, 1, 0.15, 300000.0)` on a fresh table. -/
def sample : HarmonicBondForce :=
  (HarmonicBondForce.init.addBond 0 1 (3/20) 300000).1

/-- A table holding two bonds, the second example of the specification:
`addBond(2,3,0.12,250000.0)` then `addBond(4,5,0.10,400000.0)`. -/
def sample2 : HarmonicBondForce :=
  ((HarmonicBondForce.init.addBond 2 3 (12/100) 250000).1.addBond 4 5 (1/10) 400000).1

/-- Helper: `addBonds` grows the bond list by exactly the number of calls. -/
theorem addBonds_length (calls : List (Int × Int × Rat × Rat)) :
    ∀ s : HarmonicBondForce, (s.addBonds calls).bonds.length =
      s.bonds.length + calls.length := by
  induction calls with
  | nil => intro s; simp [HarmonicBondForce.addBonds]
  | cons c cs ih =>
    intro s
    simp only [HarmonicBondForce.addBonds, List.foldl_cons] at *
    rw [ih]
    simp [HarmonicBondForce.addBond]
    omega

/-- Helper: reading the index just filled by `addBond` (the count of the
table before the call) returns exactly the four arguments of that call. -/
theorem getBondParameters_addBond (s : HarmonicBondForce) (p1 p2 : Int) (l k : Rat) :
    (s.addBond p1 p2 l k).1.getBondParameters s.getNumBonds = .ok (p1, p2, l, k) := by
  unfold HarmonicBondForce.getBondParameters HarmonicBondForce.getNumBonds
  rw [if_pos (by omega)]
  simp [HarmonicBondForce.addBond, List.getElem?_concat_length]

/-- C1 counterexample: the header (line 69) declares `addBond` as
`void addBond(int, int, double, double)`, so the call returns no value at
all; in particular, on a fresh table the claimed returned index (the
previous count, here 0) is not returned by the concrete call
`addBond(0, 1, 0.15, 300000.0)`. -/
theorem C1_counterexample :
    (HarmonicBondForce.init.addBond 0 1 (3/20) 300000).2 ≠
      some HarmonicBondForce.init.getNumBonds := by
  simp [HarmonicBondForce.addBond]

/-- C1 (amended): `addBond` returns no value (its declared return type is
void); the entry it creates is stored at the index equal to the count of
the table before the call, so the entry created by the k-th `addBond` call
of any sequence sits at index k-1. -/
theorem C1_addBond_index (s : HarmonicBondForce) (p1 p2 : Int) (l k : Rat) :
    (s.addBond p1 p2 l k).2 = none ∧
    (s.addBond p1 p2 l k).1.bonds[s.bonds.length]? = some ⟨p1, p2, l, k⟩ ∧
    (s.addBond p1 p2 l k).1.getBondParameters s.getNumBonds = .ok (p1, p2, l, k) := by
  refine ⟨rfl, ?_, getBondParameters_addBond s p1 p2 l k⟩
  simp [HarmonicBondForce.addBond, List.getElem?_concat_length]

/-- C2: `getBondParameters` and `setBondParameters` fail with
IndexOutOfRange exactly when the index is outside `[0, count())` (also on
an empty table), succeed inside it, and no error kind other than
IndexOutOfRange is ever produced. -/
theorem C2_index_errors (s : HarmonicBondForce) (i : Int) :
    ((i < 0 ∨ s.getNumBonds ≤ i) →
        s.getBondParameters i = .error .indexOutOfRange ∧
        ∀ p1 p2 : Int, ∀ l k : Rat,
          (s.setBondParameters i p1 p2 l k).2 = .error .indexOutOfRange) ∧
    (0 ≤ i → i < s.getNumBonds →
        (∃ t, s.getBondParameters i = .ok t) ∧
        ∀ p1 p2 : Int, ∀ l k : Rat,
          (s.setBondParameters i p1 p2 l k).2 = .ok ()) ∧
    (∀ e, s.getBondParameters i = .error e → e = .indexOutOfRange) ∧
    (∀ p1 p2 : Int, ∀ l k : Rat, ∀ e,
        (s.setBondParameters i p1 p2 l k).2 = .error e → e = .indexOutOfRange) := by
  unfold HarmonicBondForce.getNumBonds
  refine ⟨?_, ?_, ?_, ?_⟩
  · intro h
    have hnot : ¬ (0 ≤ i ∧ i < (s.bonds.length : Int)) := by
      rcases h with h | h <;> omega
    constructor
    · unfold HarmonicBondForce.getBondParameters
      by_cases h0 : 0 ≤ i
      · have hlen : s.bonds.length ≤ i.toNat := by
          rcases h with h | h <;> omega
        rw [if_pos h0, List.getElem?_eq_none hlen]
      · rw [if_neg h0]
    · intro p1 p2 l k
      unfold HarmonicBondForce.setBondParameters
      rw [if_neg hnot]
  · intro h0 hlt
    have hl : i.toNat < s.bonds.length := by omega
    constructor
    · refine ⟨((s.bonds.get ⟨i.toNat, hl⟩).particle1, (s.bonds.get ⟨i.toNat, hl⟩).particle2,
        (s.bonds.get ⟨i.toNat, hl⟩).length, (s.bonds.get ⟨i.toNat, hl⟩).k), ?_⟩
      unfold HarmonicBondForce.getBondParameters
      rw [if_pos h0, List.getElem?_eq_getElem hl]
      rfl
    · intro p1 p2 l k
      unfold HarmonicBondForce.setBondParameters
      rw [if_pos ⟨h0, hlt⟩]
  · intro e he
    cases e
    rfl
  · intro p1 p2 l k e he
    cases e
    rfl

/-- C2 witness: on the empty table, reading index 0 fails with
IndexOutOfRange; on a one-entry table, reading index 0 succeeds. -/
theorem C2_witness :
    HarmonicBondForce.init.getBondParameters 0 = .error .indexOutOfRange ∧
    (∃ t, sample.getBondParameters 0 = .ok t) := by
  constructor
  · exact ((C2_index_errors HarmonicBondForce.init 0).1 (Or.inr (by decide))).1
  · exact ((C2_index_errors sample 0).2.1 (by decide) (by decide)).1

/-- C3: read-after-write consistency: reading the index just filled by
`addBond` returns exactly the four arguments of that call, and after a
successful `setBondParameters i ...` reading index `i` returns exactly the
four values of that call. -/
theorem C3_read_after_write (s : HarmonicBondForce) (i p1 p2 : Int) (l k : Rat) :
    (s.addBond p1 p2 l k).1.getBondParameters s.getNumBonds = .ok (p1, p2, l, k) ∧
    ((s.setBondParameters i p1 p2 l k).2 = .ok () →
      (s.setBondParameters i p1 p2 l k).1.getBondParameters i = .ok (p1, p2, l, k)) := by
  constructor
  · exact getBondParameters_addBond s p1 p2 l k
  · intro hok
    by_cases hc : 0 ≤ i ∧ i < (s.bonds.length : Int)
    · have hl : i.toNat < s.bonds.length := by omega
      simp [HarmonicBondForce.setBondParameters, HarmonicBondForce.getBondParameters,
            hc.1, hc.2, List.getElem?_set_eq_of_lt _ hl]
    · simp [HarmonicBondForce.setBondParameters, hc] at hok

/-- C3 witness: on a fresh table, `addBond(0,1,0.15,300000)` then reading
index 0 yields those values; on the two-entry table of the spec example,
`setBondParameters(0, 2, 3, 0.13, 260000)` then reading index 0 yields the
new values. -/
theorem C3_witness :
    (HarmonicBondForce.init.addBond 0 1 (3/20) 300000).1.getBondParameters 0 =
      .ok (0, 1, 3/20, 300000) ∧
    (sample2.setBondParameters 0 2 3 (13/100) 260000).1.getBondParameters 0 =
      .ok (2, 3, 13/100, 260000) := by
  constructor
  · exact (C3_read_after_write HarmonicBondForce.init 0 0 1 (3/20) 300000).1
  · exact (C3_read_after_write sample2 0 2 3 (13/100) 260000).2 (by rfl)

/-- C4: after `n` calls of `addBond` on a fresh table, the count is `n`;
each `addBond` call raises the count by exactly one and leaves every
previously stored entry readable and unchanged. -/
theorem C4_count (s : HarmonicBondForce) (calls : List (Int × Int × Rat × Rat))
    (p1 p2 : Int) (l k : Rat) (j : Int) :
    (HarmonicBondForce.init.addBonds calls).getNumBonds = (calls.length : Int) ∧
    (s.addBond p1 p2 l k).1.getNumBonds = s.getNumBonds + 1 ∧
    (0 ≤ j → j < s.getNumBonds →
      (s.addBond p1 p2 l k).1.getBondParameters j = s.getBondParameters j) := by
  refine ⟨?_, ?_, ?_⟩
  · unfold HarmonicBondForce.getNumBonds
    rw [addBonds_length]
    simp [HarmonicBondForce.init]
  · unfold HarmonicBondForce.getNumBonds
    simp [HarmonicBondForce.addBond]
  · intro h0 hlt
    unfold HarmonicBondForce.getNumBonds at hlt
    have hl : j.toNat < s.bonds.length := by omega
    unfold HarmonicBondForce.getBondParameters
    simp [HarmonicBondForce.addBond, List.getElem?_append_left hl, h0]

/-- C4 witness: two `addBond` calls on a fresh table give count 2, and an
`addBond` on the one-entry table does not disturb the entry at index 0. -/
theorem C4_witness :
    (HarmonicBondForce.init.addBonds
      [(0, 1, 3/20, 300000), (4, 5, 1/10, 400000)]).getNumBonds = 2 ∧
    (sample.addBond 4 5 (1/10) 400000).1.getBondParameters 0 =
      sample.getBondParameters 0 := by
  constructor
  · exact (C4_count sample [(0, 1, 3/20, 300000), (4, 5, 1/10, 400000)]
      4 5 (1/10) 400000 0).1
  · exact (C4_count sample [] 4 5 (1/10) 400000 0).2.2 (by decide) (by decide)

/-- C5: a call that reports failure leaves the table state exactly as it
was; in particular a `setBondParameters` call with an out-of-range index
leaves the state unchanged and reports IndexOutOfRange. -/
theorem C5_atomic (s : HarmonicBondForce) (op : Op) (i p1 p2 : Int) (l k : Rat) :
    ((step s op).2.isErr = true → (step s op).1 = s) ∧
    ((i < 0 ∨ s.getNumBonds ≤ i) →
      (s.setBondParameters i p1 p2 l k).1 = s ∧
      (s.setBondParameters i p1 p2 l k).2 = .error .indexOutOfRange) := by
  constructor
  · intro herr
    cases op with
    | count => rfl
    | add p1 p2 l k => simp [step, Ret.isErr] at herr
    | get i => rfl
    | set i p1 p2 l k =>
      by_cases hc : 0 ≤ i ∧ i < (s.bonds.length : Int)
      · simp [step, HarmonicBondForce.setBondParameters, hc.1, hc.2, Ret.isErr] at herr
      · simp [step, HarmonicBondForce.setBondParameters, hc]
  · intro h
    have hnot : ¬ (0 ≤ i ∧ i < (s.bonds.length : Int)) := by
      unfold HarmonicBondForce.getNumBonds at h
      rcases h with h | h <;> omega
    unfold HarmonicBondForce.setBondParameters
    rw [if_neg hnot]
    exact ⟨rfl, rfl⟩

/-- C5 witness: a `setBondParameters` call at index 5 of the one-entry
table fails and leaves the table exactly as it was. -/
theorem C5_witness :
    (step sample (.set 5 0 0 1 1)).1 = sample ∧
    (sample.setBondParameters 5 0 0 1 1).1 = sample := by
  constructor
  · exact (C5_atomic sample (.set 5 0 0 1 1) 5 0 0 1 1).1 (by decide)
  · exact ((C5_atomic sample (.set 5 0 0 1 1) 5 0 0 1 1).2 (Or.inr (by decide))).1

/-- C6: a valid `setBondParameters i ...` call overwrites only index `i`:
the count is unchanged and every other index reads the same four-tuple
before and after the call. -/
theorem C6_frame (s : HarmonicBondForce) (i p1 p2 : Int) (l k : Rat) :
    0 ≤ i → i < s.getNumBonds →
      (s.setBondParameters i p1 p2 l k).1.getNumBonds = s.getNumBonds ∧
      ∀ j : Int, j ≠ i →
        (s.setBondParameters i p1 p2 l k).1.getBondParameters j =
          s.getBondParameters j := by
  intro h0 hlt
  unfold HarmonicBondForce.getNumBonds at hlt ⊢
  have hc : 0 ≤ i ∧ i < (s.bonds.length : Int) := ⟨h0, hlt⟩
  constructor
  · unfold HarmonicBondForce.setBondParameters
    rw [if_pos hc]
    simp
  · intro j hne
    unfold HarmonicBondForce.setBondParameters
    rw [if_pos hc]
    unfold HarmonicBondForce.getBondParameters
    by_cases hj : 0 ≤ j
    · have hnat : i.toNat ≠ j.toNat := by omega
      simp [List.getElem?_set_ne hnat]
    · rw [if_neg hj, if_neg hj]

/-- C6 witness: the spec example: on the two-entry table,
`setBondParameters(0, 2, 3, 0.13, 260000)` keeps the count at 2 and leaves
index 1 reading its original values. -/
theorem C6_witness :
    (sample2.setBondParameters 0 2 3 (13/100) 260000).1.getNumBonds =
      sample2.getNumBonds ∧
    (sample2.setBondParameters 0 2 3 (13/100) 260000).1.getBondParameters 1 =
      sample2.getBondParameters 1 := by
  have h := C6_frame sample2 0 2 3 (13/100) 260000 (by decide) (by decide)
  exact ⟨h.1, h.2 1 (by decide)⟩

/-- C7: the table is empty at construction, `addBond` grows it by appending
one entry at the end, no operation ever decreases the count, and an index
valid before any call is still valid after it. -/
theorem C7_monotone (s : HarmonicBondForce) (op : Op) (i : Int) :
    HarmonicBondForce.init.getNumBonds = 0 ∧
    (∀ p1 p2 : Int, ∀ l k : Rat,
      (s.addBond p1 p2 l k).1.bonds = s.bonds ++ [⟨p1, p2, l, k⟩]) ∧
    s.getNumBonds ≤ (step s op).1.getNumBonds ∧
    (0 ≤ i → i < s.getNumBonds → i < (step s op).1.getNumBonds) := by
  have hstep : s.bonds.length ≤ (step s op).1.bonds.length := by
    cases op with
    | count => exact le_refl _
    | add p1 p2 l k => simp [step, HarmonicBondForce.addBond]
    | get i => exact le_refl _
    | set i p1 p2 l k =>
      by_cases hc : 0 ≤ i ∧ i < (s.bonds.length : Int)
      · simp [step, HarmonicBondForce.setBondParameters, hc.1, hc.2]
      · simp [step, HarmonicBondForce.setBondParameters, hc]
  refine ⟨rfl, ?_, ?_, ?_⟩
  · intro p1 p2 l k
    rfl
  · unfold HarmonicBondForce.getNumBonds
    omega
  · intro h0 hlt
    unfold HarmonicBondForce.getNumBonds at hlt ⊢
    omega

/-- C7 witness: an `addBond` call on the one-entry table does not decrease
the count, and index 0, valid before the call, is valid after it. -/
theorem C7_witness :
    sample.getNumBonds ≤ (step sample (.add 4 5 (1/10) 400000)).1.getNumBonds ∧
    (0 : Int) < (step sample (.add 4 5 (1/10) 400000)).1.getNumBonds := by
  have h := C7_monotone sample (.add 4 5 (1/10) 400000) 0
  exact ⟨h.2.2.1, h.2.2.2 (by decide) (by decide)⟩

/-- C8: `count` and `getBondParameters` are side-effect free: both leave
the table state exactly as it was, two consecutive reads of the same index
return the same value, and `count` always returns the number of bonds
(never an error). -/
theorem C8_pure (s : HarmonicBondForce) (i : Int) :
    (step s (.get i)).1 = s ∧
    (step s .count).1 = s ∧
    (run s [.get i, .get i]).2 = [(step s (.get i)).2, (step s (.get i)).2] ∧
    (step s .count).2 = .int s.getNumBonds := by
  exact ⟨rfl, rfl, rfl, rfl⟩

/-- C9: `addBond` accepts every well-typed input without validation and
stores the four arguments exactly as given, including equal particle
indices, negative particle indices and a non-positive force constant. -/
theorem C9_no_validation (s : HarmonicBondForce) (p1 p2 : Int) (l k : Rat) :
    (s.addBond p1 p2 l k).1.bonds[s.bonds.length]? = some ⟨p1, p2, l, k⟩ ∧
    (s.addBond p1 p2 l k).1.getBondParameters s.getNumBonds = .ok (p1, p2, l, k) ∧
    (s.addBond (-7) (-7) l (-1)).1.bonds[s.bonds.length]? = some ⟨-7, -7, l, -1⟩ := by
  refine ⟨?_, getBondParameters_addBond s p1 p2 l k, ?_⟩
  · simp [HarmonicBondForce.addBond, List.getElem?_concat_length]
  · simp [HarmonicBondForce.addBond, List.getElem?_concat_length]

/-- C10: the table is deterministic: the same sequence of calls applied to
two freshly constructed tables produces the same trace of returned values
and the same final contents; nothing but the call arguments influences any
result. -/
theorem C10_deterministic (s1 s2 : HarmonicBondForce) (ops : List Op) :
    s1 = HarmonicBondForce.init → s2 = HarmonicBondForce.init →
    run s1 ops = run s2 ops := by
  rintro rfl rfl
  rfl

/-- C10 witness: a concrete call sequence run on two fresh tables gives
identical traces and final states. -/
theorem C10_witness :
    run HarmonicBondForce.init [.add 0 1 (3/20) 300000, .count, .get 0] =
      run HarmonicBondForce.init [.add 0 1 (3/20) 300000, .count, .get 0] :=
  C10_deterministic HarmonicBondForce.init HarmonicBondForce.init
    [.add 0 1 (3/20) 300000, .count, .get 0] rfl rfl

end OpenMM
